import Mathlib

/-!
Verification development for the Heallthultra `ncd-mh-assistant` core:
triage pipeline (normalizer, red-flag evaluator, domain rule engines,
aggregator, external advisory connector), trend estimator, and the
frontend HTTP client helpers in `frontend/services/api.ts`.

The backend decision logic lives in `backend/app/logic/triage.py` and
`backend/app/logic/trends.py`, which are referenced by the repository
READMEs but whose bodies are not part of the available sources; those
components are modelled from the specification text. The frontend client
functions are embedded directly from `frontend/services/api.ts`.
-/

namespace HealthUltra

/-- Modelled from the spec: the ordered triage severity enum
(`Emergency > Urgent > PrimaryCare > SelfCare`), the output level of
`backend/app/logic/triage.py` (missing from the sources). -/
inductive TriageLevel
  | Emergency
  | Urgent
  | PrimaryCare
  | SelfCare
deriving DecidableEq, Repr

/-- Severity rank of a triage level: higher means more severe. -/
def sevRank : TriageLevel → Nat
  | .Emergency => 3
  | .Urgent => 2
  | .PrimaryCare => 1
  | .SelfCare => 0

/-- The more severe of two triage levels under the total order
`Emergency > Urgent > PrimaryCare > SelfCare`. -/
def maxLevel (a b : TriageLevel) : TriageLevel :=
  if sevRank b ≤ sevRank a then a else b

/-- Modelled from the spec: the sex enum of an intake record. -/
inductive Sex
  | male
  | female
  | other
deriving DecidableEq, Repr

/-- Modelled from the spec: the clinical domain tag selecting the rule
engine variant. -/
inductive Domain
  | NCD
  | MH
deriving DecidableEq, Repr

/-- Modelled from the spec: a raw intake record as delivered to the
Domain Value Normalizer, before validation.  Numeric fields are rational
so that the "age must be an integer" check is meaningful. -/
structure RawRecord where
  age : Rat
  sex : Sex
  domain : Domain
  primary_symptom : String
  duration_days : Option Rat
  bp_sys : Option Rat
  bp_dia : Option Rat
  glucose : Option Rat
  weight : Option Rat
  phq9 : Option Rat
  gad7 : Option Rat
  self_harm : Bool
deriving DecidableEq, Repr

/-- Modelled from the spec: a canonical validated record produced by the
normalizer.  `quality_notes` carries the clamp-and-flag data-quality
notes. -/
structure NormalizedRecord where
  age : Nat
  sex : Sex
  domain : Domain
  primary_symptom : String
  duration_days : Option Rat
  bp_sys : Option Rat
  bp_dia : Option Rat
  glucose : Option Rat
  weight : Option Rat
  phq9 : Option Rat
  gad7 : Option Rat
  self_harm : Bool
  quality_notes : List String
deriving DecidableEq, Repr

/-- Modelled from the spec: `ValidationError` naming the offending field. -/
structure ValidationError where
  field : String
deriving DecidableEq, Repr

/-- Clamp an optional numeric field into `[lo, hi]`, emitting a
data-quality note when the raw value was out of the plausible range
(clamp-and-flag rather than reject). -/
def clampFlag (name : String) (lo hi : Rat) :
    Option Rat → Option Rat × List String
  | none => (none, [])
  | some v =>
    if v < lo then (some lo, [name ++ " below plausible range"])
    else if hi < v then (some hi, [name ++ " above plausible range"])
    else (some v, [])

/-- Modelled from the spec: the Domain Value Normalizer of
`backend/app/logic/triage.py` (missing from the sources).  Age must be a
non-negative integer ≤ 120, otherwise the record is rejected with a
`ValidationError` naming `age`; numeric vitals and scores are
clamped-and-flagged into physiologically plausible ranges. -/
def normalize (raw : RawRecord) : Except ValidationError NormalizedRecord :=
  if raw.age.den = 1 ∧ 0 ≤ raw.age ∧ raw.age ≤ 120 then
    let sys := clampFlag ("bp_sys") 40 300 raw.bp_sys
    let dia := clampFlag ("bp_dia") 20 200 raw.bp_dia
    let glu := clampFlag ("glucose") 20 800 raw.glucose
    let wt := clampFlag ("weight") 1 500 raw.weight
    let p9 := clampFlag ("phq9") 0 27 raw.phq9
    let g7 := clampFlag ("gad7") 0 21 raw.gad7
    .ok
      { age := raw.age.num.toNat
        sex := raw.sex
        domain := raw.domain
        primary_symptom := raw.primary_symptom
        duration_days := raw.duration_days
        bp_sys := sys.1
        bp_dia := dia.1
        glucose := glu.1
        weight := wt.1
        phq9 := p9.1
        gad7 := g7.1
        self_harm := raw.self_harm
        quality_notes := sys.2 ++ dia.2 ++ glu.2 ++ wt.2 ++ p9.2 ++ g7.2 }
  else
    .error ⟨"age"⟩

/-- `true` when the optional value is present and at least `thr`. -/
def geOpt (thr : Rat) : Option Rat → Bool
  | none => false
  | some v => decide (thr ≤ v)

/-- Modelled from the spec: hypertensive-crisis red-flag predicate
(`systolic_bp ≥ 180 OR diastolic_bp ≥ 120`). -/
def bpCrisis (r : NormalizedRecord) : Bool :=
  geOpt 180 r.bp_sys || geOpt 120 r.bp_dia

/-- Modelled from the spec: severe-hyperglycemia red-flag predicate
(`glucose ≥ 400`). -/
def glucoseCrisis (r : NormalizedRecord) : Bool :=
  geOpt 400 r.glucose

/-- Modelled from the spec: the Red-Flag Evaluator of
`backend/app/logic/triage.py` (missing from the sources) — the fixed,
ordered table of immediate-danger predicates, returning the triggered
flag identifiers in evaluation order. -/
def redFlags (r : NormalizedRecord) : List String :=
  (if r.self_harm then ["SELF_HARM"] else []) ++
  (if bpCrisis r then ["HYPERTENSIVE_CRISIS"] else []) ++
  (if glucoseCrisis r then ["SEVERE_HYPERGLYCEMIA"] else [])

/-- Modelled from the spec: one rationale string per triggered red flag,
in the evaluator's fixed order. -/
def redFlagRationale (r : NormalizedRecord) : List String :=
  (redFlags r).map (fun f => "red flag: " ++ f)

/-- Modelled from the spec: the red-flag severity floor — any triggered
flag forces triage to at least `Emergency`; no flag contributes no
floor. -/
def redFlagFloor (r : NormalizedRecord) : TriageLevel :=
  if redFlags r = [] then .SelfCare else .Emergency

/-- Modelled from the spec: NCD systolic-BP band severity
(crisis ≥ 180 / stage-2 ≥ 140 / elevated ≥ 120 / normal). -/
def sysBand : Option Rat → TriageLevel
  | none => .SelfCare
  | some v =>
    if 180 ≤ v then .Emergency
    else if 140 ≤ v then .Urgent
    else if 120 ≤ v then .PrimaryCare
    else .SelfCare

/-- Modelled from the spec: NCD diastolic-BP band severity
(crisis ≥ 120 / stage-2 ≥ 90 / normal). -/
def diaBand : Option Rat → TriageLevel
  | none => .SelfCare
  | some v =>
    if 120 ≤ v then .Emergency
    else if 90 ≤ v then .Urgent
    else .SelfCare

/-- Modelled from the spec: NCD glucose band severity
(critical ≥ 400 / diabetic ≥ 126 / prediabetic ≥ 100 / normal). -/
def gluBand : Option Rat → TriageLevel
  | none => .SelfCare
  | some v =>
    if 400 ≤ v then .Emergency
    else if 126 ≤ v then .Urgent
    else if 100 ≤ v then .PrimaryCare
    else .SelfCare

/-- Modelled from the spec: the NCD rule engine's severity — the maximum
severity across independently evaluated vitals, never an average. -/
def ncdSeverity (r : NormalizedRecord) : TriageLevel :=
  maxLevel (sysBand r.bp_sys) (maxLevel (diaBand r.bp_dia) (gluBand r.glucose))

/-- Modelled from the spec: NCD rationale strings, one per evaluated
vital band, plus a missing-data note when no vitals were submitted. -/
def ncdRationale (r : NormalizedRecord) : List String :=
  (if r.bp_sys.isNone ∧ r.bp_dia.isNone ∧ r.glucose.isNone then
    ["missing inputs: no vitals submitted"] else []) ++
  (match r.bp_sys with
   | none => []
   | some _ => ["systolic blood pressure band: " ++ reprStr (sysBand r.bp_sys)]) ++
  (match r.bp_dia with
   | none => []
   | some _ => ["diastolic blood pressure band: " ++ reprStr (diaBand r.bp_dia)]) ++
  (match r.glucose with
   | none => []
   | some _ => ["glucose band: " ++ reprStr (gluBand r.glucose)])

/-- Modelled from the spec: the Mental-Health rule engine's severity —
PHQ-9 ≥ 20 or GAD-7 ≥ 15 gives at least `Urgent`; moderate scores
(PHQ-9 ≥ 10 or GAD-7 ≥ 10) give `PrimaryCare`. -/
def mhSeverity (r : NormalizedRecord) : TriageLevel :=
  if geOpt 20 r.phq9 || geOpt 15 r.gad7 then .Urgent
  else if geOpt 10 r.phq9 || geOpt 10 r.gad7 then .PrimaryCare
  else .SelfCare

/-- Modelled from the spec: Mental-Health rationale strings. -/
def mhRationale (r : NormalizedRecord) : List String :=
  (if r.phq9.isNone ∧ r.gad7.isNone then
    ["missing inputs: no mental-health scores submitted"] else []) ++
  (if geOpt 20 r.phq9 then ["PHQ-9 in severe band"] else []) ++
  (if geOpt 15 r.gad7 then ["GAD-7 in severe band"] else [])

/-- Modelled from the spec: domain dispatch — the severity of the rule
engine variant selected by the record's domain tag. -/
def domainSeverity (r : NormalizedRecord) : TriageLevel :=
  match r.domain with
  | .NCD => ncdSeverity r
  | .MH => mhSeverity r

/-- Modelled from the spec: domain dispatch for rationale, prefixed with
the normalizer's data-quality notes. -/
def domainRationale (r : NormalizedRecord) : List String :=
  r.quality_notes ++
  (match r.domain with
   | .NCD => ncdRationale r
   | .MH => mhRationale r)

/-- Modelled from the spec: condition hints contributed by the domain
rules. -/
def domainHints (r : NormalizedRecord) : List String :=
  match r.domain with
  | .NCD =>
    (if bpCrisis r then ["hypertensive crisis"] else []) ++
    (if geOpt 126 r.glucose then ["diabetes"] else [])
  | .MH =>
    (if geOpt 20 r.phq9 then ["major depressive disorder"] else []) ++
    (if geOpt 15 r.gad7 then ["generalized anxiety disorder"] else [])

/-- Modelled from the spec: `TriageResult` — the triage level with the
supporting rationale, action and condition-hint lists. -/
structure TriageResult where
  triage_level : TriageLevel
  rationale : List String
  actions : List String
  condition_hints : List String
deriving DecidableEq, Repr

/-- Worker for `dedupFirst`: drops entries already in `seen`, keeping
the first occurrence of every string. -/
def dedupFirstAux (seen : List String) : List String → List String
  | [] => []
  | x :: xs =>
    if x ∈ seen then dedupFirstAux seen xs
    else x :: dedupFirstAux (x :: seen) xs

/-- Remove exact-string duplicates keeping the first occurrence. -/
def dedupFirst (l : List String) : List String := dedupFirstAux [] l

/-- Modelled from the spec: the static action lookup keyed by the final
triage level. -/
def actionsFor : TriageLevel → List String
  | .Emergency => ["seek emergency care immediately"]
  | .Urgent => ["see a clinician within 24 hours"]
  | .PrimaryCare => ["schedule a primary care visit"]
  | .SelfCare => ["self-care and monitoring"]

/-- Modelled from the spec: the red-flag evaluator's bundled output fed
to the aggregator. -/
structure RedFlagOutput where
  floor : TriageLevel
  rationale : List String
deriving DecidableEq, Repr

/-- Modelled from the spec: the domain rule engine's bundled output fed
to the aggregator. -/
structure DomainOutput where
  severity : TriageLevel
  rationale : List String
  hints : List String
deriving DecidableEq, Repr

/-- Modelled from the spec: the Triage Aggregator of
`backend/app/logic/triage.py` (missing from the sources) — the final
level is the maximum of the red-flag floor and the domain severity;
rationale is red-flag rationale first then domain rationale with
exact-string duplicates removed keeping the first occurrence; actions
come from the static lookup on the final level; hints are the union of
contributed hints. -/
def aggregate (rf : RedFlagOutput) (de : DomainOutput) : TriageResult :=
  let level := maxLevel rf.floor de.severity
  { triage_level := level
    rationale := dedupFirst (rf.rationale ++ de.rationale)
    actions := dedupFirst (actionsFor level)
    condition_hints := dedupFirst de.hints }

/-- Red-flag evaluator output for a normalized record. -/
def redFlagEval (r : NormalizedRecord) : RedFlagOutput :=
  { floor := redFlagFloor r, rationale := redFlagRationale r }

/-- Domain rule engine output for a normalized record. -/
def domainEval (r : NormalizedRecord) : DomainOutput :=
  { severity := domainSeverity r
    rationale := domainRationale r
    hints := domainHints r }

/-- The core triage computation on a normalized record: red-flag
evaluation and domain rules combined by the aggregator. -/
def triageCore (r : NormalizedRecord) : TriageResult :=
  aggregate (redFlagEval r) (domainEval r)

/-- Modelled from the spec: the draft-producing triage pipeline —
normalize, then red-flag + domain evaluation, then aggregation;
validation failure stops the pipeline before any rule evaluation. -/
def analyze (raw : RawRecord) : Except ValidationError TriageResult :=
  (normalize raw).map triageCore

/-- Modelled from the spec: the shape of a well-formed external advisory
response. -/
structure AdvisoryResponse where
  triage_level : TriageLevel
  rationale : List String
  actions : List String
  condition_hints : List String
deriving DecidableEq, Repr

/-- Modelled from the spec: the possible outcomes of the external
advisory call — timeout and transport errors are treated identically,
and a malformed response is treated as failure. -/
inductive AdvisoryOutcome
  | timeout
  | transportError
  | malformed
  | wellFormed (resp : AdvisoryResponse)
deriving DecidableEq, Repr

/-- Modelled from the spec: the External Advisory Connector of
`backend/app/logic/triage.py` (missing from the sources).  Any failure
outcome returns the draft unchanged; a well-formed response may only add
rationale/actions/hints and never lowers the already-computed level. -/
def applyAdvisory (draft : TriageResult) : AdvisoryOutcome → TriageResult
  | .timeout => draft
  | .transportError => draft
  | .malformed => draft
  | .wellFormed resp =>
    { triage_level := maxLevel draft.triage_level resp.triage_level
      rationale := dedupFirst (draft.rationale ++ resp.rationale)
      actions := dedupFirst (draft.actions ++ resp.actions)
      condition_hints := dedupFirst (draft.condition_hints ++ resp.condition_hints) }

/-- Modelled from the spec: the full triage pipeline including the
optional external advisory step. -/
def analyzeFull (raw : RawRecord) (oc : AdvisoryOutcome) :
    Except ValidationError TriageResult :=
  (analyze raw).map (fun draft => applyAdvisory draft oc)

/-- Modelled from the spec: one observation of a tracked metric.
`t` is the absolute timestamp measured in days. -/
structure ObservationPoint where
  t : Rat
  value : Rat
deriving DecidableEq, Repr

/-- Modelled from the spec: the trend classification enum. -/
inductive Trend
  | Improving
  | Stable
  | Worsening
  | Insufficient
deriving DecidableEq, Repr

/-- Modelled from the spec: `TrendResult` — echoed points, EWMA, slope
per day, trend classification, and confidence. -/
structure TrendResult where
  points : List ObservationPoint
  ewma : Option Rat
  slope_per_day : Option Rat
  trend : Trend
  confidence : Rat
deriving DecidableEq, Repr

/-- Modelled from the spec: the fixed EWMA smoothing factor α = 0.3. -/
def alpha : Rat := 3 / 10

/-- Modelled from the spec: the dead-band threshold ε for the Stable
classification. -/
def deadBand : Rat := 1 / 100

/-- Modelled from the spec: the reference point count for the confidence
formula. -/
def nRef : Rat := 5

/-- Modelled from the spec: iterative EWMA seeded with the first value,
`ewma_i = α·value_i + (1-α)·ewma_im1`. -/
def ewmaOf : List Rat → Option Rat
  | [] => none
  | v :: vs => some (vs.foldl (fun acc x => alpha * x + (1 - alpha) * acc) v)

/-- The arithmetic mean of a list of rationals. -/
def mean (l : List Rat) : Rat := l.sum / l.length

/-- Elapsed days of each point since the series' first point. -/
def elapsedDays (p0 : ObservationPoint) (pts : List ObservationPoint) :
    List Rat :=
  pts.map (fun p => p.t - p0.t)

/-- The values of a series. -/
def valuesOf (pts : List ObservationPoint) : List Rat :=
  pts.map (fun p => p.value)

/-- Sum of squared deviations from the mean. -/
def sumSqDev (l : List Rat) : Rat :=
  (l.map (fun x => (x - mean l) ^ 2)).sum

/-- Sum of products of paired deviations from the respective means. -/
def sumProdDev (xs ys : List Rat) : Rat :=
  ((xs.zip ys).map (fun q => (q.1 - mean xs) * (q.2 - mean ys))).sum

/-- Modelled from the spec: the OLS slope of value against elapsed days
since the first point, `none` when the series has fewer than 2 points or
the time span is zero (so that the division branch is never taken on a
zero denominator). -/
def slopeOf (pts : List ObservationPoint) : Option Rat :=
  match pts with
  | [] => none
  | [_] => none
  | p0 :: _ :: _ =>
    let xs := elapsedDays p0 pts
    let ys := valuesOf pts
    if sumSqDev xs = 0 then none else some (sumProdDev xs ys / sumSqDev xs)

/-- Sum of squared residuals of `ys` against the fitted line with slope
`m` over `xs`. -/
def sumSqResid (m : Rat) (xs ys : List Rat) : Rat :=
  ((xs.zip ys).map (fun q => (q.2 - (mean ys + m * (q.1 - mean xs))) ^ 2)).sum

/-- Modelled from the spec: residual variance around the fitted line
(around the mean when no line could be fitted), used to damp
confidence. -/
def residualVariance (pts : List ObservationPoint) : Rat :=
  match pts with
  | [] => 0
  | p0 :: _ =>
    let n : Rat := pts.length
    let xs := elapsedDays p0 pts
    let ys := valuesOf pts
    match slopeOf pts with
    | none => sumSqDev ys / n
    | some m => sumSqResid m xs ys / n

/-- Modelled from the spec: the confidence formula
`min(1, (n / n_ref) · (1 / (1 + residual variance)))`, 0 when fewer
than 2 points. -/
def confidenceFormula (n : Nat) (v : Rat) : Rat :=
  if n < 2 then 0 else min 1 (((n : Rat) / nRef) * (1 / (1 + v)))

/-- Modelled from the spec: trend classification from the slope —
dead-band to Stable, sign outside the dead-band mapped through the
per-metric direction parameter (`higherIsWorse`). -/
def classifyTrend (higherIsWorse : Bool) : Option Rat → Trend
  | none => .Stable
  | some m =>
    if |m| < deadBand then .Stable
    else if 0 < m then (if higherIsWorse then .Worsening else .Improving)
    else (if higherIsWorse then .Improving else .Worsening)

/-- Modelled from the spec: the Trend Estimator of
`backend/app/logic/trends.py` (missing from the sources). -/
def trendEstimate (higherIsWorse : Bool) (pts : List ObservationPoint) :
    TrendResult :=
  if pts.length < 2 then
    { points := pts
      ewma := pts.head?.map (fun p => p.value)
      slope_per_day := none
      trend := .Insufficient
      confidence := 0 }
  else
    let slope := slopeOf pts
    { points := pts
      ewma := ewmaOf (pts.map (fun p => p.value))
      slope_per_day := slope
      trend := classifyTrend higherIsWorse slope
      confidence := confidenceFormula pts.length (residualVariance pts) }

/-! ### Frontend HTTP client, embedded from `frontend/services/api.ts` -/

/-- `AnalyzeResponse` from `frontend/services/api.ts`: the parsed JSON
body of a successful `/analyze` call. -/
structure AnalyzeResponse where
  triage_level : String
  actions : List String
  rationale : List String
  condition_hints : List String
deriving DecidableEq, Repr

/-- `TrendResponse` from `frontend/services/api.ts`: the parsed JSON
body of a successful `/trend` call. -/
structure TrendResponse where
  points : List (String × Rat)
  ewma : Option Rat
  slope_per_day : Option Rat
  trend : String
  confidence : Rat
deriving DecidableEq, Repr

/-- The observable part of a `fetch` response as used by
`frontend/services/api.ts`: the `ok` status, the body text, and the
body parsed as JSON of the expected shape. -/
structure FetchResponse (J : Type) where
  ok : Bool
  text : String
  json : J
deriving DecidableEq, Repr

/-- `analyzeCase` from `frontend/services/api.ts`: on a non-ok response
it throws an `Error` whose message is the body text, or the fixed Thai
fallback string when the body text is empty (JavaScript `text || ...`);
on an ok response it returns the parsed JSON body. -/
def analyzeCase (resp : FetchResponse AnalyzeResponse) :
    Except String AnalyzeResponse :=
  if !resp.ok then
    .error (if resp.text = "" then "ไม่สามารถประเมินได้" else resp.text)
  else
    .ok resp.json

/-- `fetchTrend` from `frontend/services/api.ts`: same error contract as
`analyzeCase` with its own fallback message. -/
def fetchTrend (resp : FetchResponse TrendResponse) :
    Except String TrendResponse :=
  if !resp.ok then
    .error (if resp.text = "" then "ไม่สามารถดึงข้อมูลแนวโน้มได้" else resp.text)
  else
    .ok resp.json

/-! ### Helper lemmas -/

theorem sevRank_maxLevel (a b : TriageLevel) :
    sevRank (maxLevel a b) = max (sevRank a) (sevRank b) := by
  unfold maxLevel
  split_ifs with h <;> omega

theorem maxLevel_emergency_left (b : TriageLevel) :
    maxLevel .Emergency b = .Emergency := by
  cases b <;> rfl

theorem maxLevel_rank_mono {a a' b b' : TriageLevel}
    (ha : sevRank a ≤ sevRank a') (hb : sevRank b ≤ sevRank b') :
    sevRank (maxLevel a b) ≤ sevRank (maxLevel a' b') := by
  rw [sevRank_maxLevel, sevRank_maxLevel]
  exact max_le_max ha hb

theorem geOpt_false_mono {thr v v' : Rat} (hvv : v ≤ v')
    (h : geOpt thr (some v') = false) : geOpt thr (some v) = false := by
  simp only [geOpt, decide_eq_false_iff_not] at h ⊢
  intro hc
  exact h (hc.trans hvv)

theorem sysBand_rank_mono {v v' : Rat} (h : v ≤ v') :
    sevRank (sysBand (some v)) ≤ sevRank (sysBand (some v')) := by
  simp only [sysBand]
  split_ifs <;> simp only [sevRank] <;> first | omega | linarith

theorem diaBand_rank_mono {v v' : Rat} (h : v ≤ v') :
    sevRank (diaBand (some v)) ≤ sevRank (diaBand (some v')) := by
  simp only [diaBand]
  split_ifs <;> simp only [sevRank] <;> first | omega | linarith

theorem gluBand_rank_mono {v v' : Rat} (h : v ≤ v') :
    sevRank (gluBand (some v)) ≤ sevRank (gluBand (some v')) := by
  simp only [gluBand]
  split_ifs <;> simp only [sevRank] <;> first | omega | linarith

theorem redFlags_eq_nil (r : NormalizedRecord) :
    redFlags r = [] ↔
      r.self_harm = false ∧ bpCrisis r = false ∧ glucoseCrisis r = false := by
  cases h1 : r.self_harm <;> cases h2 : bpCrisis r <;>
    cases h3 : glucoseCrisis r <;> simp [redFlags, h1, h2, h3]

theorem floor_rank_mono {r1 r2 : NormalizedRecord}
    (h : redFlags r2 = [] → redFlags r1 = []) :
    sevRank (redFlagFloor r1) ≤ sevRank (redFlagFloor r2) := by
  by_cases h1 : redFlags r1 = []
  · by_cases h2 : redFlags r2 = [] <;> simp [redFlagFloor, h1, h2, sevRank]
  · have h2 : redFlags r2 ≠ [] := fun hc => h1 (h hc)
    simp [redFlagFloor, h1, h2]

theorem triageCore_level (r : NormalizedRecord) :
    (triageCore r).triage_level = maxLevel (redFlagFloor r) (domainSeverity r) :=
  rfl

theorem triage_rank_mono {r1 r2 : NormalizedRecord}
    (hsh : r1.self_harm = r2.self_harm)
    (hbp : bpCrisis r2 = false → bpCrisis r1 = false)
    (hgl : glucoseCrisis r2 = false → glucoseCrisis r1 = false)
    (hsev : sevRank (domainSeverity r1) ≤ sevRank (domainSeverity r2)) :
    sevRank (triageCore r1).triage_level ≤
      sevRank (triageCore r2).triage_level := by
  rw [triageCore_level, triageCore_level]
  refine maxLevel_rank_mono (floor_rank_mono ?_) hsev
  intro h2
  obtain ⟨hs, hb, hg⟩ := (redFlags_eq_nil r2).mp h2
  exact (redFlags_eq_nil r1).mpr ⟨hsh.trans hs, hbp hb, hgl hg⟩

theorem triageCore_self_harm (r : NormalizedRecord) (h : r.self_harm = true) :
    (triageCore r).triage_level = .Emergency := by
  have hne : redFlags r ≠ [] := by simp [redFlags, h]
  rw [triageCore_level, redFlagFloor, if_neg hne]
  exact maxLevel_emergency_left _

theorem applyAdvisory_emergency (draft : TriageResult) (oc : AdvisoryOutcome)
    (h : draft.triage_level = .Emergency) :
    (applyAdvisory draft oc).triage_level = .Emergency := by
  cases oc <;> simp [applyAdvisory, h, maxLevel_emergency_left]

theorem mem_dedupFirstAux (l : List String) :
    ∀ (seen : List String) (a : String),
      a ∈ dedupFirstAux seen l ↔ (a ∈ l ∧ a ∉ seen) := by
  induction l with
  | nil => intro seen a; simp [dedupFirstAux]
  | cons x xs ih =>
    intro seen a
    by_cases hx : x ∈ seen
    · simp only [dedupFirstAux, if_pos hx, ih, List.mem_cons]
      constructor
      · rintro ⟨h1, h2⟩; exact ⟨Or.inr h1, h2⟩
      · rintro ⟨h1 | h1, h2⟩
        · subst h1; exact absurd hx h2
        · exact ⟨h1, h2⟩
    · simp only [dedupFirstAux, if_neg hx, List.mem_cons, ih, not_or]
      constructor
      · rintro (rfl | ⟨h1, h2, h3⟩)
        · exact ⟨Or.inl rfl, hx⟩
        · exact ⟨Or.inr h1, h3⟩
      · rintro ⟨rfl | h1, h2⟩
        · exact Or.inl rfl
        · by_cases hax : a = x
          · exact Or.inl hax
          · exact Or.inr ⟨h1, hax, h2⟩

theorem nodup_dedupFirstAux (l : List String) :
    ∀ seen : List String, (dedupFirstAux seen l).Nodup := by
  induction l with
  | nil => intro seen; simp [dedupFirstAux]
  | cons x xs ih =>
    intro seen
    by_cases hx : x ∈ seen
    · simpa [dedupFirstAux, if_pos hx] using ih seen
    · simp only [dedupFirstAux, if_neg hx]
      refine List.nodup_cons.mpr ⟨fun hmem => ?_, ih _⟩
      exact ((mem_dedupFirstAux xs (x :: seen) x).mp hmem).2
        (List.mem_cons_self _ _)

theorem sublist_dedupFirstAux (l : List String) :
    ∀ seen : List String, List.Sublist (dedupFirstAux seen l) l := by
  induction l with
  | nil => intro seen; simp [dedupFirstAux]
  | cons x xs ih =>
    intro seen
    by_cases hx : x ∈ seen
    · simp only [dedupFirstAux, if_pos hx]
      exact (ih seen).trans (List.sublist_cons_self _ _)
    · simp only [dedupFirstAux, if_neg hx]
      exact (ih (x :: seen)).cons₂ x

theorem dedupFirstAux_congr (l : List String) :
    ∀ seen seen' : List String, (∀ a, a ∈ seen ↔ a ∈ seen') →
      dedupFirstAux seen l = dedupFirstAux seen' l := by
  induction l with
  | nil => intro seen seen' _; rfl
  | cons x xs ih =>
    intro seen seen' h
    by_cases hx : x ∈ seen
    · simp only [dedupFirstAux, if_pos hx, if_pos ((h x).mp hx)]
      exact ih _ _ h
    · have hx' : x ∉ seen' := fun hc => hx ((h x).mpr hc)
      simp only [dedupFirstAux, if_neg hx, if_neg hx']
      refine congrArg _ (ih _ _ fun a => ?_)
      simp [List.mem_cons, h a]

theorem dedupFirstAux_filter (l : List String) :
    ∀ (seen : List String) (x : String),
      dedupFirstAux (x :: seen) l =
        dedupFirstAux seen (l.filter (fun y => y ≠ x)) := by
  induction l with
  | nil => intro seen x; rfl
  | cons y ys ih =>
    intro seen x
    by_cases hyx : y = x
    · subst hyx
      have hmem : y ∈ y :: seen := List.mem_cons_self _ _
      simp only [dedupFirstAux, if_pos hmem, List.filter_cons,
        decide_eq_true_eq]
      rw [if_neg (by simp)]
      exact ih seen y
    · have hfil : (y :: ys).filter (fun z => z ≠ x) =
          y :: ys.filter (fun z => z ≠ x) := by
        simp [List.filter_cons, hyx]
      rw [hfil]
      by_cases hys : y ∈ seen
      · have h1 : y ∈ x :: seen := List.mem_cons_of_mem _ hys
        simp only [dedupFirstAux, if_pos h1, if_pos hys]
        exact ih seen x
      · have h1 : y ∉ x :: seen := by
          simp [List.mem_cons, hyx, hys]
        simp only [dedupFirstAux, if_neg h1, if_neg hys]
        refine congrArg _ ?_
        rw [dedupFirstAux_congr ys (y :: x :: seen) (x :: y :: seen)
          (fun a => by simp [List.mem_cons]; tauto)]
        exact ih (y :: seen) x

theorem dedupFirst_cons (x : String) (xs : List String) :
    dedupFirst (x :: xs) =
      x :: dedupFirst (xs.filter (fun y => y ≠ x)) := by
  simp only [dedupFirst, dedupFirstAux, if_neg (List.not_mem_nil x)]
  exact congrArg _ (dedupFirstAux_filter xs [] x)

theorem mem_dedupFirst (l : List String) (a : String) :
    a ∈ dedupFirst l ↔ a ∈ l := by
  simp [dedupFirst, mem_dedupFirstAux]

theorem sumSqDev_nonneg (l : List Rat) : 0 ≤ sumSqDev l := by
  refine List.sum_nonneg ?_
  intro y hy
  simp only [List.mem_map] at hy
  obtain ⟨x, _, rfl⟩ := hy
  exact sq_nonneg _

theorem sumSqResid_nonneg (m : Rat) (xs ys : List Rat) :
    0 ≤ sumSqResid m xs ys := by
  refine List.sum_nonneg ?_
  intro y hy
  simp only [List.mem_map] at hy
  obtain ⟨x, _, rfl⟩ := hy
  exact sq_nonneg _

theorem sumSqDev_eq_zero_of_all_zero (l : List Rat) (h : ∀ x ∈ l, x = 0) :
    sumSqDev l = 0 := by
  have hs : l.sum = 0 := List.sum_eq_zero h
  refine List.sum_eq_zero ?_
  intro y hy
  simp only [List.mem_map] at hy
  obtain ⟨x, hx, rfl⟩ := hy
  rw [h x hx]
  simp [mean, hs]

theorem residualVariance_nonneg (pts : List ObservationPoint) :
    0 ≤ residualVariance pts := by
  cases pts with
  | nil => simp [residualVariance]
  | cons p0 rest =>
    simp only [residualVariance]
    cases h : slopeOf (p0 :: rest) with
    | none =>
      simp only [h]
      exact div_nonneg (sumSqDev_nonneg _) (by positivity)
    | some m =>
      simp only [h]
      exact div_nonneg (sumSqResid_nonneg _ _ _) (by positivity)

theorem confidenceFormula_nonneg (n : Nat) (v : Rat) (hv : 0 ≤ v) :
    0 ≤ confidenceFormula n v := by
  unfold confidenceFormula
  split_ifs with h
  · exact le_refl _
  · refine le_min zero_le_one ?_
    refine mul_nonneg (div_nonneg (Nat.cast_nonneg _) (by norm_num [nRef])) ?_
    exact div_nonneg zero_le_one (by linarith)

theorem confidenceFormula_le_one (n : Nat) (v : Rat) :
    confidenceFormula n v ≤ 1 := by
  unfold confidenceFormula
  split_ifs with h
  · exact zero_le_one
  · exact min_le_left _ _

theorem confidenceFormula_pos (n : Nat) (v : Rat) (hn : 2 ≤ n) (hv : 0 ≤ v) :
    0 < confidenceFormula n v := by
  unfold confidenceFormula
  rw [if_neg (by omega)]
  refine lt_min one_pos ?_
  refine mul_pos ?_ ?_
  · refine div_pos ?_ (by norm_num [nRef])
    have : (2 : Rat) ≤ (n : Rat) := by exact_mod_cast hn
    linarith
  · exact div_pos one_pos (by linarith)

theorem confidenceFormula_mono (n m : Nat) (v : Rat) (hnm : n ≤ m)
    (hv : 0 ≤ v) : confidenceFormula n v ≤ confidenceFormula m v := by
  unfold confidenceFormula
  split_ifs with h1 h2 h2
  · exact le_refl _
  · refine le_min zero_le_one ?_
    refine mul_nonneg (div_nonneg (Nat.cast_nonneg _) (by norm_num [nRef])) ?_
    exact div_nonneg zero_le_one (by linarith)
  · omega
  · refine min_le_min (le_refl 1) ?_
    refine mul_le_mul_of_nonneg_right ?_ ?_
    · refine (div_le_div_iff_of_pos_right (by norm_num [nRef])).mpr ?_
      exact_mod_cast hnm
    · exact div_nonneg zero_le_one (by linarith)

/-! ### Sample inputs used by witnesses -/

/-- A valid MH intake record whose `self_harm` red-flag answer is true. -/
def sampleSelfHarmRecord : RawRecord :=
  { age := 30, sex := .male, domain := .MH, primary_symptom := "sad"
    duration_days := none, bp_sys := none, bp_dia := none, glucose := none
    weight := none, phq9 := some 5, gad7 := none, self_harm := true }

/-- A valid NCD intake record with moderate vitals and no red flags. -/
def sampleNcdRecord : NormalizedRecord :=
  { age := 40, sex := .female, domain := .NCD, primary_symptom := "dizzy"
    duration_days := none, bp_sys := some 130, bp_dia := some 80
    glucose := some 110, weight := none, phq9 := none, gad7 := none
    self_harm := false, quality_notes := [] }

/-- A record whose age field is out of the allowed range. -/
def sampleBadAgeRecord : RawRecord :=
  { age := 130, sex := .other, domain := .NCD, primary_symptom := "pain"
    duration_days := none, bp_sys := none, bp_dia := none, glucose := none
    weight := none, phq9 := none, gad7 := none, self_harm := false }

/-- A sample parsed `/analyze` response body. -/
def sampleAnalyzeJson : AnalyzeResponse := ⟨"แดง", [], [], []⟩

/-- A sample parsed `/trend` response body. -/
def sampleTrendJson : TrendResponse := ⟨[], none, none, "ทรงตัว", 0⟩

/-! ### Claim theorems -/

/-- C1: for every intake record with a true `self_harm` red-flag answer
(and a valid age, so the record is an IntakeRecord at all), the full
triage pipeline — normalizer, red-flag evaluator, domain engine,
aggregator and external advisory connector — yields `triage_level =
Emergency`, regardless of every other field and of the advisory
outcome. -/
theorem self_harm_forces_emergency (raw : RawRecord) (oc : AdvisoryOutcome)
    (hs : raw.self_harm = true)
    (hage : raw.age.den = 1 ∧ 0 ≤ raw.age ∧ raw.age ≤ 120) :
    (analyzeFull raw oc).map (fun res => res.triage_level) = .ok .Emergency := by
  simp only [analyzeFull, analyze, normalize, if_pos hage, Except.map]
  refine congrArg Except.ok ?_
  exact applyAdvisory_emergency _ _ (triageCore_self_harm _ hs)

/-- Witness for C1 at a concrete self-harm record. -/
theorem self_harm_forces_emergency_witness :
    sampleSelfHarmRecord.self_harm = true ∧
    (analyzeFull sampleSelfHarmRecord .timeout).map
      (fun res => res.triage_level) = .ok .Emergency :=
  ⟨rfl, self_harm_forces_emergency sampleSelfHarmRecord .timeout rfl (by decide)⟩

/-- C2: for every red-flag-evaluator output and domain-rule-engine
output, the aggregator's `triage_level` is `maxLevel` of the red-flag
floor and the domain severity; `maxLevel` realises the maximum under the
total order `Emergency > Urgent > PrimaryCare > SelfCare` (its rank is
the maximum of the ranks and it returns one of its two arguments); and
the result is one of exactly the four levels. -/
theorem aggregate_level_is_ordered_max (rf : RedFlagOutput) (de : DomainOutput) :
    (aggregate rf de).triage_level = maxLevel rf.floor de.severity ∧
    sevRank (maxLevel rf.floor de.severity) =
      max (sevRank rf.floor) (sevRank de.severity) ∧
    (maxLevel rf.floor de.severity = rf.floor ∨
      maxLevel rf.floor de.severity = de.severity) ∧
    ((aggregate rf de).triage_level = .Emergency ∨
      (aggregate rf de).triage_level = .Urgent ∨
      (aggregate rf de).triage_level = .PrimaryCare ∨
      (aggregate rf de).triage_level = .SelfCare) := by
  refine ⟨rfl, sevRank_maxLevel _ _, ?_, ?_⟩
  · unfold maxLevel
    split_ifs <;> simp
  · cases h : (aggregate rf de).triage_level <;> simp

/-- C3: a series with fewer than 2 points yields a normal result —
trend `Insufficient`, ewma the lone value (or none when empty), no
slope, confidence 0 — and never an error. -/
theorem trend_insufficient_short_series (dir : Bool)
    (pts : List ObservationPoint) (hlen : pts.length < 2) :
    trendEstimate dir pts =
      { points := pts
        ewma := pts.head?.map (fun p => p.value)
        slope_per_day := none
        trend := .Insufficient
        confidence := 0 } ∧
    (pts = [] → (trendEstimate dir pts).ewma = none) ∧
    (∀ p, pts = [p] → (trendEstimate dir pts).ewma = some p.value) := by
  refine ⟨by simp [trendEstimate, hlen], ?_, ?_⟩
  · rintro rfl; simp [trendEstimate]
  · rintro p rfl; simp [trendEstimate]

/-- Witness for C3 at a one-point series. -/
theorem trend_insufficient_short_series_witness :
    ([⟨0, 7⟩] : List ObservationPoint).length < 2 ∧
    trendEstimate true [⟨0, 7⟩] =
      { points := [⟨0, 7⟩], ewma := some 7, slope_per_day := none
        trend := .Insufficient, confidence := 0 } :=
  ⟨by decide, (trend_insufficient_short_series true [⟨0, 7⟩] (by decide)).1⟩

/-- C4: for a series of at least 2 points whose timestamps all
coincide (zero time span), the slope is `none`: the OLS division branch
is never taken, so no division by zero occurs. -/
theorem trend_zero_span_no_division (dir : Bool)
    (pts : List ObservationPoint) (hlen : 2 ≤ pts.length)
    (hsame : ∀ p ∈ pts, ∀ q ∈ pts, p.t = q.t) :
    slopeOf pts = none ∧ (trendEstimate dir pts).slope_per_day = none := by
  have hs : slopeOf pts = none := by
    cases pts with
    | nil => simp at hlen
    | cons p0 tl =>
      cases tl with
      | nil => simp at hlen
      | cons p1 rest =>
        have hzero : ∀ x ∈ elapsedDays p0 (p0 :: p1 :: rest), x = 0 := by
          intro x hx
          simp only [elapsedDays, List.mem_map] at hx
          obtain ⟨p, hp, rfl⟩ := hx
          rw [hsame p hp p0 (List.mem_cons_self _ _)]
          ring
        have h0 : sumSqDev (elapsedDays p0 (p0 :: p1 :: rest)) = 0 :=
          sumSqDev_eq_zero_of_all_zero _ hzero
        simp [slopeOf, h0]
  refine ⟨hs, ?_⟩
  have hge : ¬ pts.length < 2 := by omega
  simp [trendEstimate, hge, hs]

/-- Witness for C4 at a two-point zero-span series. -/
theorem trend_zero_span_no_division_witness :
    2 ≤ ([⟨5, 1⟩, ⟨5, 2⟩] : List ObservationPoint).length ∧
    (slopeOf [⟨5, 1⟩, ⟨5, 2⟩] = none ∧
      (trendEstimate true [⟨5, 1⟩, ⟨5, 2⟩]).slope_per_day = none) :=
  ⟨by decide, trend_zero_span_no_division true [⟨5, 1⟩, ⟨5, 2⟩] (by decide)
    (by decide)⟩

/-- C5: the trend estimator's confidence lies in `[0, 1]` for every
series, equals 0 exactly when the series has fewer than 2 points, is
computed by the documented formula from point count and residual
variance, and that formula is monotonically non-decreasing in the point
count when the residual variance is held constant. -/
theorem trend_confidence_bounds_mono (dir : Bool)
    (pts : List ObservationPoint) (n m : Nat) (v : Rat)
    (hnm : n ≤ m) (hv : 0 ≤ v) :
    0 ≤ (trendEstimate dir pts).confidence ∧
    (trendEstimate dir pts).confidence ≤ 1 ∧
    ((trendEstimate dir pts).confidence = 0 ↔ pts.length < 2) ∧
    (trendEstimate dir pts).confidence =
      confidenceFormula pts.length (residualVariance pts) ∧
    confidenceFormula n v ≤ confidenceFormula m v := by
  have hrv := residualVariance_nonneg pts
  have heq : (trendEstimate dir pts).confidence =
      confidenceFormula pts.length (residualVariance pts) := by
    unfold trendEstimate
    split_ifs with h
    · simp [confidenceFormula, h]
    · rfl
  refine ⟨?_, ?_, ?_, heq, confidenceFormula_mono n m v hnm hv⟩
  · rw [heq]; exact confidenceFormula_nonneg _ _ hrv
  · rw [heq]; exact confidenceFormula_le_one _ _
  · rw [heq]
    constructor
    · intro h0
      by_contra hge
      exact (confidenceFormula_pos pts.length _ (by omega) hrv).ne' h0
    · intro h; simp [confidenceFormula, h]

/-- Witness for C5 at a concrete two-point series and concrete formula
arguments. -/
theorem trend_confidence_bounds_mono_witness :
    (2 : Nat) ≤ 3 ∧ (0 : Rat) ≤ 0 ∧
    (0 ≤ (trendEstimate true [⟨0, 1⟩, ⟨1, 2⟩]).confidence ∧
      (trendEstimate true [⟨0, 1⟩, ⟨1, 2⟩]).confidence ≤ 1 ∧
      ((trendEstimate true [⟨0, 1⟩, ⟨1, 2⟩]).confidence = 0 ↔
        ([⟨0, 1⟩, ⟨1, 2⟩] : List ObservationPoint).length < 2) ∧
      (trendEstimate true [⟨0, 1⟩, ⟨1, 2⟩]).confidence =
        confidenceFormula ([⟨0, 1⟩, ⟨1, 2⟩] : List ObservationPoint).length
          (residualVariance [⟨0, 1⟩, ⟨1, 2⟩]) ∧
      confidenceFormula 2 0 ≤ confidenceFormula 3 0) :=
  ⟨by decide, by decide,
    trend_confidence_bounds_mono true [⟨0, 1⟩, ⟨1, 2⟩] 2 3 0 (by decide)
      (by decide)⟩

/-- C6: the external advisory connector returns the draft unchanged on
timeout, transport error and malformed response, and on no outcome —
including a well-formed response — does it lower the already-computed
triage level; being a total function, it raises nothing past the
pipeline boundary. -/
theorem advisory_failure_safe (draft : TriageResult) (oc : AdvisoryOutcome) :
    applyAdvisory draft .timeout = draft ∧
    applyAdvisory draft .transportError = draft ∧
    applyAdvisory draft .malformed = draft ∧
    sevRank draft.triage_level ≤ sevRank (applyAdvisory draft oc).triage_level := by
  refine ⟨rfl, rfl, rfl, ?_⟩
  cases oc with
  | timeout => exact le_refl _
  | transportError => exact le_refl _
  | malformed => exact le_refl _
  | wellFormed resp =>
    show sevRank draft.triage_level ≤
      sevRank (maxLevel draft.triage_level resp.triage_level)
    rw [sevRank_maxLevel]
    exact le_max_left _ _

/-- C7: holding all other fields fixed, raising any single vital
(systolic BP, diastolic BP or glucose) never decreases the final triage
level, and the NCD engine's severity is definitionally the maximum of
the severities of the independently evaluated vitals, never an
average. -/
theorem triage_monotone_in_vitals (r : NormalizedRecord) (v v' : Rat)
    (hvv : v ≤ v') :
    sevRank (triageCore { r with bp_sys := some v }).triage_level ≤
      sevRank (triageCore { r with bp_sys := some v' }).triage_level ∧
    sevRank (triageCore { r with bp_dia := some v }).triage_level ≤
      sevRank (triageCore { r with bp_dia := some v' }).triage_level ∧
    sevRank (triageCore { r with glucose := some v }).triage_level ≤
      sevRank (triageCore { r with glucose := some v' }).triage_level ∧
    ncdSeverity r = maxLevel (sysBand r.bp_sys)
      (maxLevel (diaBand r.bp_dia) (gluBand r.glucose)) := by
  refine ⟨?_, ?_, ?_, rfl⟩
  · refine triage_rank_mono rfl ?_ (fun h => h) ?_
    · intro h
      simp only [bpCrisis, Bool.or_eq_false_iff] at h ⊢
      exact ⟨geOpt_false_mono hvv h.1, h.2⟩
    · cases hd : r.domain with
      | NCD =>
        have h1 : ({ r with bp_sys := some v } : NormalizedRecord).domain
            = Domain.NCD := hd
        have h2 : ({ r with bp_sys := some v' } : NormalizedRecord).domain
            = Domain.NCD := hd
        simp only [domainSeverity, h1, h2]
        exact maxLevel_rank_mono (sysBand_rank_mono hvv) (le_refl _)
      | MH =>
        have h1 : ({ r with bp_sys := some v } : NormalizedRecord).domain
            = Domain.MH := hd
        have h2 : ({ r with bp_sys := some v' } : NormalizedRecord).domain
            = Domain.MH := hd
        simp only [domainSeverity, h1, h2]
        exact le_refl _
  · refine triage_rank_mono rfl ?_ (fun h => h) ?_
    · intro h
      simp only [bpCrisis, Bool.or_eq_false_iff] at h ⊢
      exact ⟨h.1, geOpt_false_mono hvv h.2⟩
    · cases hd : r.domain with
      | NCD =>
        have h1 : ({ r with bp_dia := some v } : NormalizedRecord).domain
            = Domain.NCD := hd
        have h2 : ({ r with bp_dia := some v' } : NormalizedRecord).domain
            = Domain.NCD := hd
        simp only [domainSeverity, h1, h2]
        exact maxLevel_rank_mono (le_refl _)
          (maxLevel_rank_mono (diaBand_rank_mono hvv) (le_refl _))
      | MH =>
        have h1 : ({ r with bp_dia := some v } : NormalizedRecord).domain
            = Domain.MH := hd
        have h2 : ({ r with bp_dia := some v' } : NormalizedRecord).domain
            = Domain.MH := hd
        simp only [domainSeverity, h1, h2]
        exact le_refl _
  · refine triage_rank_mono rfl (fun h => h) ?_ ?_
    · intro h
      simp only [glucoseCrisis] at h ⊢
      exact geOpt_false_mono hvv h
    · cases hd : r.domain with
      | NCD =>
        have h1 : ({ r with glucose := some v } : NormalizedRecord).domain
            = Domain.NCD := hd
        have h2 : ({ r with glucose := some v' } : NormalizedRecord).domain
            = Domain.NCD := hd
        simp only [domainSeverity, h1, h2]
        exact maxLevel_rank_mono (le_refl _)
          (maxLevel_rank_mono (le_refl _) (gluBand_rank_mono hvv))
      | MH =>
        have h1 : ({ r with glucose := some v } : NormalizedRecord).domain
            = Domain.MH := hd
        have h2 : ({ r with glucose := some v' } : NormalizedRecord).domain
            = Domain.MH := hd
        simp only [domainSeverity, h1, h2]
        exact le_refl _

/-- Witness for C7 at a concrete NCD record and vital values. -/
theorem triage_monotone_in_vitals_witness :
    (100 : Rat) ≤ 150 ∧
    sevRank (triageCore { sampleNcdRecord with bp_sys := some 100 }).triage_level ≤
      sevRank (triageCore { sampleNcdRecord with bp_sys := some 150 }).triage_level :=
  ⟨by decide, (triage_monotone_in_vitals sampleNcdRecord 100 150 (by decide)).1⟩

/-- C8: the aggregator's rationale equals the red-flag rationale
followed by the domain rationale with exact-string duplicates removed
keeping the first occurrence; the result has no duplicates, contains
exactly the strings of the concatenation (red-flag entries precede but
never suppress domain entries), preserves their relative order, and the
deduplication keeps the first occurrence of every string. -/
theorem aggregate_rationale_union (rf : RedFlagOutput) (de : DomainOutput) :
    (aggregate rf de).rationale = dedupFirst (rf.rationale ++ de.rationale) ∧
    ((aggregate rf de).rationale).Nodup ∧
    (∀ s : String, s ∈ (aggregate rf de).rationale ↔
      s ∈ rf.rationale ++ de.rationale) ∧
    List.Sublist ((aggregate rf de).rationale) (rf.rationale ++ de.rationale) ∧
    ∀ (x : String) (xs : List String),
      dedupFirst (x :: xs) = x :: dedupFirst (xs.filter (fun y => y ≠ x)) := by
  have e : (aggregate rf de).rationale =
      dedupFirst (rf.rationale ++ de.rationale) := rfl
  refine ⟨e, ?_, ?_, ?_, dedupFirst_cons⟩
  · rw [e]; exact nodup_dedupFirstAux _ _
  · intro s; rw [e]; exact mem_dedupFirst _ s
  · rw [e]; exact sublist_dedupFirstAux _ _

/-- C9: a raw record whose age is not a non-negative integer at most
120 is rejected by the normalizer with a `ValidationError` naming the
`age` field, and the whole pipeline stops with that error before any
red-flag or domain-rule evaluation (both the draft pipeline and the full
pipeline return the error, producing no `TriageResult`). -/
theorem invalid_age_stops_pipeline (raw : RawRecord) (oc : AdvisoryOutcome)
    (h : ¬(raw.age.den = 1 ∧ 0 ≤ raw.age ∧ raw.age ≤ 120)) :
    normalize raw = .error ⟨"age"⟩ ∧
    analyze raw = .error ⟨"age"⟩ ∧
    analyzeFull raw oc = .error ⟨"age"⟩ := by
  have hn : normalize raw = .error ⟨"age"⟩ := by
    simp only [normalize, if_neg h]
  exact ⟨hn, by simp [analyze, hn, Except.map],
    by simp [analyzeFull, analyze, hn, Except.map]⟩

/-- Witness for C9 at a record with age 130. -/
theorem invalid_age_stops_pipeline_witness :
    ¬(sampleBadAgeRecord.age.den = 1 ∧ 0 ≤ sampleBadAgeRecord.age ∧
        sampleBadAgeRecord.age ≤ 120) ∧
    (normalize sampleBadAgeRecord = .error ⟨"age"⟩ ∧
      analyze sampleBadAgeRecord = .error ⟨"age"⟩ ∧
      analyzeFull sampleBadAgeRecord .malformed = .error ⟨"age"⟩) :=
  ⟨by decide, invalid_age_stops_pipeline sampleBadAgeRecord .malformed (by decide)⟩

/-- C10: the frontend client functions throw an `Error` on every non-ok
HTTP response — with the body text as message when non-empty and the
fixed Thai fallback string otherwise — never returning a parsed result,
and return the parsed JSON body on every ok response. -/
theorem client_http_error_contract (ra : FetchResponse AnalyzeResponse)
    (rt : FetchResponse TrendResponse) :
    (ra.ok = false →
      analyzeCase ra =
        .error (if ra.text = "" then "ไม่สามารถประเมินได้" else ra.text) ∧
      ∀ j, analyzeCase ra ≠ .ok j) ∧
    (ra.ok = true → analyzeCase ra = .ok ra.json) ∧
    (rt.ok = false →
      fetchTrend rt =
        .error (if rt.text = "" then "ไม่สามารถดึงข้อมูลแนวโน้มได้" else rt.text) ∧
      ∀ j, fetchTrend rt ≠ .ok j) ∧
    (rt.ok = true → fetchTrend rt = .ok rt.json) := by
  refine ⟨?_, ?_, ?_, ?_⟩ <;> intro h <;> simp [analyzeCase, fetchTrend, h]

/-- Witness for C10 at concrete responses. -/
theorem client_http_error_contract_witness :
    analyzeCase ⟨false, "boom", sampleAnalyzeJson⟩ = .error ("boom") ∧
    fetchTrend ⟨true, "", sampleTrendJson⟩ = .ok sampleTrendJson := by
  constructor
  · have h := ((client_http_error_contract ⟨false, "boom", sampleAnalyzeJson⟩
      ⟨true, "", sampleTrendJson⟩).1 rfl).1
    rw [if_neg (by decide)] at h
    exact h
  · exact (client_http_error_contract ⟨false, "boom", sampleAnalyzeJson⟩
      ⟨true, "", sampleTrendJson⟩).2.2.2 rfl

end HealthUltra
